import Mathlib

/-!
Verification of the epoch-based reclamation demo (`BirdCage`/`Canary`).

The repository's source (`src/main.rs`) contains the demo harness: the
`Canary` payload whose destructor logs a message, the `BirdCage` slot-array
container built on `crossbeam::epoch::Atomic`, and the `main` driver.  The
epoch engine itself (`pin`, guards, the global epoch counter, garbage bags,
`defer_destroy`, `flush`) lives in the external `crossbeam` crate, whose
sources are not part of this repository; those parts are modelled from the
specification and are marked as such in their doc comments.

The development has two layers:

1. `Ebr`: a small transition system for the epoch counter, pin registry and
   garbage bags, modelled from the spec (sections 3 and 4.1/4.2), used for
   the central temporal safety invariant.
2. `Sim`: an executable sequential semantics of the demo program itself,
   with `BirdCage.new`, `access`, `replace` translated from `src/main.rs`
   and `flush`/container teardown modelled from the spec.  Rust panics
   (index out of bounds, unwrap of a null shared pointer) are represented
   by an `Except` error carrying the state after unwinding.
-/

namespace EpochPlayground

/-- Canary payload from `src/main.rs`: a named value whose destructor prints
`"<name>: dropped"`. -/
structure Canary where
  name : String
deriving DecidableEq

/-- Canary constructor, from `Canary::new` in `src/main.rs`. -/
def Canary.new (name : String) : Canary := ⟨name⟩

/-! ## Layer 1: the epoch engine as a transition system (modelled from the spec) -/

/-- Modelled from the spec: state of the epoch-based reclamation engine
(the crossbeam epoch counter, pin registry and garbage bags are not part of
this repository's sources; sections 3, 4.1 and 4.2 of the spec describe
them).  `epoch` is the global epoch counter (the 3-phase value is its value
mod 3; we keep the unbounded counter, whose monotonicity the spec states).
`pins` holds the recorded epoch of every live guard.  `bags` holds pending
deferred actions as pairs (phase tag at defer time, action id).  `executed`
records every executed action as (phase tag, action id, global epoch at
execution time). -/
structure Ebr where
  epoch : Nat
  pins : List Nat
  bags : List (Nat × Nat)
  executed : List (Nat × Nat × Nat)
deriving DecidableEq

/-- Modelled from the spec: one transition of the epoch engine.
`pin` registers a guard at the current global epoch; `unpin` removes a live
pin; `defer` queues an action tagged with the phase its guard was pinned
at; `advance` bumps the global epoch only when no pinned entry is older
than the current epoch; `drain` executes a pending action only when the
global epoch has advanced at least twice past its tag. -/
inductive EbrStep : Ebr → Ebr → Prop
  | pin (s : Ebr) :
      EbrStep s { s with pins := s.epoch :: s.pins }
  | unpin (s : Ebr) (l1 l2 : List Nat) (p : Nat) (h : s.pins = l1 ++ p :: l2) :
      EbrStep s { s with pins := l1 ++ l2 }
  | defer (s : Ebr) (p a : Nat) (h : p ∈ s.pins) :
      EbrStep s { s with bags := (p, a) :: s.bags }
  | advance (s : Ebr) (h : ∀ p ∈ s.pins, s.epoch ≤ p) :
      EbrStep s { s with epoch := s.epoch + 1 }
  | drain (s : Ebr) (l1 l2 : List (Nat × Nat)) (e a : Nat)
      (h : s.bags = l1 ++ (e, a) :: l2) (he : e + 2 ≤ s.epoch) :
      EbrStep s { s with bags := l1 ++ l2, executed := (e, a, s.epoch) :: s.executed }

/-- Initial engine state: epoch 0, no pins, no garbage, nothing executed. -/
def Ebr.init : Ebr := ⟨0, [], [], []⟩

/-- States reachable from the initial engine state. -/
inductive EbrReachable : Ebr → Prop
  | init : EbrReachable Ebr.init
  | step {s t : Ebr} : EbrReachable s → EbrStep s t → EbrReachable t

/-- Inductive invariant of the engine: every live pin's recorded epoch is at
most one behind the global epoch (and never ahead of it), and every executed
action ran at an epoch at least two past its tag and at most the current
epoch. -/
def EbrInv (s : Ebr) : Prop :=
  (∀ p ∈ s.pins, p ≤ s.epoch ∧ s.epoch ≤ p + 1) ∧
  (∀ t ∈ s.executed, t.1 + 2 ≤ t.2.2 ∧ t.2.2 ≤ s.epoch)

/-- Demo engine state: an action deferred at phase 0 has been executed at
epoch 2, and a fresh guard is pinned at epoch 2. -/
def ebrDemo : Ebr := ⟨2, [2], [], [(0, 5, 2)]⟩

/-! ## Layer 2: executable sequential semantics of the demo program -/

/-- Rust panic kinds that can occur in `access`/`replace` of `src/main.rs`:
indexing `self.c[n]` out of bounds, and `unwrap()` of a null shared
pointer. -/
inductive RPanic
  | indexOutOfBounds
  | unwrapNone
deriving DecidableEq

/-- Slot-array container from `src/main.rs`: `struct BirdCage { c: Vec<Atomic<Canary>> }`.
A slot value of `none` models a null `Atomic` pointer; `Atomic::new`
always produces a non-null one. -/
structure BirdCage where
  c : List (Option Canary)
deriving DecidableEq

/-- Constructor `BirdCage::new(size)` from `src/main.rs`: pushes
`Atomic::new(Canary::new("Canary i"))` for each `i` in `0..size`. -/
def BirdCage.new (size : Nat) : BirdCage :=
  ⟨(List.range size).map fun ii => some (Canary.new ("Canary " ++ toString ii))⟩

/-- State of the sequential demo run.  `cage` is the `BirdCage`; the engine
fields are modelled from the spec: `epoch` is the global epoch counter,
`bags` the pending deferred destructions as (phase tag at defer time,
value), `destroyed` the values whose destructor has run, in order, and
`log` everything printed so far. -/
structure Sim where
  epoch : Nat
  cage : BirdCage
  bags : List (Nat × Canary)
  destroyed : List Canary
  log : List String
deriving DecidableEq

/-- Operation `BirdCage::access` from `src/main.rs`: pin, load slot `n`,
unwrap the shared pointer, print the accessing message.  Indexing out of
bounds or unwrapping null panics (an `Except.error` carrying the state
after unwinding, which here changes nothing). -/
def access (s : Sim) (n : Nat) (ctx : String) : Except (RPanic × Sim) Sim :=
  match s.cage.c[n]? with
  | none => .error (.indexOutOfBounds, s)
  | some none => .error (.unwrapNone, s)
  | some (some c) =>
      .ok { s with log := s.log ++ ["[" ++ ctx ++ "] accessing " ++ c.name] }

/-- Operation `BirdCage::replace` from `src/main.rs`: print the put message,
pin, wrap `new_c` in an `Owned`, swap it into slot `n`, unwrap and print
the stolen value, then `defer_destroy` the stolen value (tagging it with
the current epoch, as the spec's `defer` contract states).  If the indexing
panics, unwinding drops the already-created `Owned`, destroying `new_c`;
if the unwrap of the stolen pointer panics, the swap has already happened
and the new value is already stored. -/
def replace (s : Sim) (n : Nat) (ctx : String) (new_c : Canary) : Except (RPanic × Sim) Sim :=
  let s1 : Sim := { s with
    log := s.log ++ ["[" ++ ctx ++ "] put " ++ new_c.name ++ " into slot " ++ toString n] }
  match s1.cage.c[n]? with
  | none =>
      .error (.indexOutOfBounds,
        { s1 with
            destroyed := s1.destroyed ++ [new_c],
            log := s1.log ++ [new_c.name ++ ": dropped"] })
  | some none =>
      .error (.unwrapNone, { s1 with cage := ⟨s1.cage.c.set n (some new_c)⟩ })
  | some (some c) =>
      .ok { s1 with
              cage := ⟨s1.cage.c.set n (some new_c)⟩,
              log := (s1.log ++ ["[" ++ ctx ++ "] removed " ++ c.name]),
              bags := s1.bags ++ [(s1.epoch, c)] }

/-- Modelled from the spec: `guard.flush()` (section 4.2) advances the
global epoch (the flushing guard is pinned at the current epoch, so the
advance condition of section 4.1 holds in this sequential run) and drains
every bag whose phase is at least 2 behind the new epoch, executing its
queued destructions in the order they were deferred. -/
def flush (s : Sim) : Sim :=
  let e := s.epoch + 1
  let ready := s.bags.filter fun b => decide (b.1 + 2 ≤ e)
  let rest := s.bags.filter fun b => !decide (b.1 + 2 ≤ e)
  { epoch := e
    cage := s.cage
    bags := rest
    destroyed := s.destroyed ++ ready.map Prod.snd
    log := s.log ++ ready.map fun b => b.2.name ++ ": dropped" }

/-- Modelled from the spec: at container teardown, values still resident in
slots are destroyed (spec section 8, exactly-once destruction: "or at
container teardown for values never dislodged"). -/
def teardown (s : Sim) : Sim :=
  { s with
      cage := ⟨[]⟩
      destroyed := s.destroyed ++ s.cage.c.filterMap id
      log := s.log ++ (s.cage.c.filterMap id).map fun c => c.name ++ ": dropped" }

/-- Commands the demo driver can issue. -/
inductive Cmd
  | access (n : Nat) (ctx : String)
  | replace (n : Nat) (ctx : String) (c : Canary)
  | flush
deriving DecidableEq

/-- Run one command on the state. -/
def stepCmd (s : Sim) : Cmd → Except (RPanic × Sim) Sim
  | .access n ctx => access s n ctx
  | .replace n ctx c => replace s n ctx c
  | .flush => .ok (flush s)

/-- Run a command list, stopping at the first panic. -/
def runCmds (s : Sim) : List Cmd → Except (RPanic × Sim) Sim
  | [] => .ok s
  | cmd :: rest =>
      match stepCmd s cmd with
      | .error e => .error e
      | .ok s1 => runCmds s1 rest

/-- Initial state: fresh engine state and a freshly built cage of the given
size. -/
def initSim (size : Nat) : Sim :=
  ⟨0, BirdCage.new size, [], [], []⟩

/-- Every slot of the cage is non-null. -/
def allOccupied (b : BirdCage) : Prop := ∀ slot ∈ b.c, slot ≠ none

/-! ### The `main` driver of `src/main.rs` and its variants -/

/-- First loop of `main`: `birdcage.access(n, "main")` for `n` in `0..10`. -/
def accessCmds : List Cmd := (List.range 10).map fun n => .access n "main"

/-- Second loop of `main`: `birdcage.replace(n, "main", Canary::new("Cuckoo n"))`
for `n` in `0..10`. -/
def replaceCmds : List Cmd :=
  (List.range 10).map fun n => .replace n "main" (Canary.new ("Cuckoo " ++ toString n))

/-- Second loop of `main` with the commented-out `guard.flush()` in
`replace` reinstated: each replace is followed by a flush. -/
def replaceFlushCmds : List Cmd :=
  (((List.range 10).map fun n =>
      [Cmd.replace n "main" (Canary.new ("Cuckoo " ++ toString n)), Cmd.flush]).flatten)

/-- The `main` of `src/main.rs`: ten accesses, ten replaces, then the two
trailing `pin().flush()` calls. -/
def mainProg : List Cmd := accessCmds ++ replaceCmds ++ [.flush, .flush]

/-- Variant of `main` with the two trailing `pin().flush()` calls removed. -/
def mainProgNoFlush : List Cmd := accessCmds ++ replaceCmds

/-- Variant of `main` with the `guard.flush()` in `replace` uncommented. -/
def mainProgFlushInReplace : List Cmd :=
  accessCmds ++ replaceFlushCmds ++ [.flush, .flush]

/-- Names of every value ever stored in a slot during the demo run: the ten
initial `Canary i` created by `BirdCage::new(10)` and the ten `Cuckoo n`
swapped in by the replace loop. -/
def storedNames : List String :=
  ((List.range 10).map fun n => "Canary " ++ toString n) ++
  ((List.range 10).map fun n => "Cuckoo " ++ toString n)

/-- Final state of a demo program on a size-10 cage: run the commands, then
tear the container down at end of `main`; `none` if the run panicked. -/
def finalState (prog : List Cmd) : Option Sim :=
  match runCmds (initSim 10) prog with
  | .ok s => some (teardown s)
  | .error _ => none

/-! ## Theorems -/

theorem ebrInv_init : EbrInv Ebr.init := by
  constructor
  · intro p hp; simp [Ebr.init] at hp
  · intro t ht; simp [Ebr.init] at ht

theorem ebrInv_step {s t : Ebr} (hinv : EbrInv s) (hstep : EbrStep s t) : EbrInv t := by
  obtain ⟨hpin, hexec⟩ := hinv
  cases hstep with
  | pin =>
      refine ⟨?_, hexec⟩
      intro p hp
      rcases List.mem_cons.mp hp with rfl | hp
      · exact ⟨le_refl _, Nat.le_succ _⟩
      · exact hpin p hp
  | unpin l1 l2 p h =>
      refine ⟨?_, hexec⟩
      intro q hq
      apply hpin
      rw [h]
      rcases List.mem_append.mp hq with hq | hq
      · exact List.mem_append.mpr (Or.inl hq)
      · exact List.mem_append.mpr (Or.inr (List.mem_cons_of_mem _ hq))
  | defer p a h =>
      exact ⟨hpin, hexec⟩
  | advance h =>
      constructor
      · intro p hp
        have h1 := (hpin p hp).1
        have h2 := h p hp
        have : p = s.epoch := le_antisymm h1 h2
        subst this
        exact ⟨Nat.le_succ _, le_refl _⟩
      · intro t ht
        have := hexec t ht
        exact ⟨this.1, Nat.le_succ_of_le this.2⟩
  | drain l1 l2 e a h he =>
      refine ⟨hpin, ?_⟩
      intro t ht
      rcases List.mem_cons.mp ht with rfl | ht
      · exact ⟨he, le_refl _⟩
      · exact hexec t ht

theorem ebrInv_reachable {s : Ebr} (h : EbrReachable s) : EbrInv s := by
  induction h with
  | init => exact ebrInv_init
  | step _ hstep ih => exact ebrInv_step ih hstep

/-- C1: no use-after-free.  In every reachable engine state, every executed
deferred action ran at a global epoch at least two past its phase tag, and
while a guard pinned at epoch `p` is alive, no action tagged with phase `p`
or later has been executed — so a value that was loaded under a live guard
(its retirement is necessarily tagged at or after the guard's pin epoch)
is never reclaimed while that guard is alive. -/
theorem no_use_after_free (s : Ebr) (hs : EbrReachable s) :
    (∀ t ∈ s.executed, t.1 + 2 ≤ t.2.2) ∧
    (∀ p ∈ s.pins, ∀ t ∈ s.executed, t.1 < p) := by
  obtain ⟨hpin, hexec⟩ := ebrInv_reachable hs
  refine ⟨fun t ht => (hexec t ht).1, ?_⟩
  intro p hp t ht
  have h1 := (hexec t ht).1
  have h2 := (hexec t ht).2
  have h3 := (hpin p hp).2
  omega

theorem no_use_after_free_witness :
    (∀ t ∈ ebrDemo.executed, t.1 + 2 ≤ t.2.2) ∧
    (∀ p ∈ ebrDemo.pins, ∀ t ∈ ebrDemo.executed, t.1 < p) :=
  no_use_after_free ebrDemo (by
    have h0 : EbrReachable Ebr.init := EbrReachable.init
    have h1 : EbrReachable ⟨0, [0], [], []⟩ := .step h0 (.pin _)
    have h2 : EbrReachable ⟨0, [0], [(0, 5)], []⟩ :=
      .step h1 (.defer _ 0 5 (by decide))
    have h3 : EbrReachable ⟨0, [], [(0, 5)], []⟩ :=
      .step h2 (.unpin _ [] [] 0 rfl)
    have h4 : EbrReachable ⟨1, [], [(0, 5)], []⟩ :=
      .step h3 (.advance _ (by intro p hp; cases hp))
    have h5 : EbrReachable ⟨2, [], [(0, 5)], []⟩ :=
      .step h4 (.advance _ (by intro p hp; cases hp))
    have h6 : EbrReachable ⟨2, [], [], [(0, 5, 2)]⟩ :=
      .step h5 (.drain _ [] [] 0 5 rfl (by decide))
    exact .step h6 (.pin _))

/-- C2: exactly-once destruction.  Running the `main` of `src/main.rs`
(ten accesses, ten replaces, two flushes, then container teardown) destroys
exactly the twenty values ever stored in the cage — the ten initial
`Canary i` (dislodged and reclaimed after the two flushes) and the ten
`Cuckoo n` (still resident, destroyed at teardown) — each exactly once, and
leaves no pending garbage. -/
theorem exactly_once_destruction :
    (finalState mainProg).map (fun s => s.destroyed.map Canary.name) = some storedNames ∧
    (finalState mainProg).map (fun s => s.bags.length) = some 0 ∧
    storedNames.Nodup := by decide

/-- C7 counterexample: removing the two trailing `pin().flush()` calls from
`main` changes which values the program destroys.  With them, every one of
the twenty stored values is destroyed (`Canary 0` among them); without
them, `Canary 0` is never destroyed and the ten dislodged Canaries are
still pending in the garbage bags at program end. -/
theorem flush_removal_changes_destruction :
    (finalState mainProg).map (fun s => decide (Canary.new "Canary 0" ∈ s.destroyed)) =
      some true ∧
    (finalState mainProgNoFlush).map (fun s => decide (Canary.new "Canary 0" ∈ s.destroyed)) =
      some false ∧
    (finalState mainProgNoFlush).map (fun s => s.bags.length) = some 10 ∧
    (finalState mainProg).map (fun s => s.destroyed.map Canary.name) ≠
      (finalState mainProgNoFlush).map (fun s => s.destroyed.map Canary.name) := by decide

/-- C7 amended: inserting extra `flush()` calls does not change which values
the program destroys, only when — the variant of `main` with the
commented-out `guard.flush()` in `replace` reinstated destroys exactly the
same values, in the same order, as the original program, namely all twenty
stored values exactly once. -/
theorem flush_insertion_preserves_destruction :
    (finalState mainProgFlushInReplace).map (fun s => s.destroyed.map Canary.name) =
      (finalState mainProg).map (fun s => s.destroyed.map Canary.name) ∧
    (finalState mainProgFlushInReplace).map (fun s => s.destroyed.map Canary.name) =
      some storedNames := by decide

/-- C3: bounds check.  On a cage of size `N`, `access` and `replace` with
any index `n ≥ N` panic immediately with an index-out-of-bounds error —
never silently clamped or ignored — and the state at the panic has the cage
(every slot) and the garbage bags unchanged. -/
theorem bounds_violation (s : Sim) (n : Nat) (ctx : String) (new_c : Canary)
    (h : s.cage.c.length ≤ n) :
    access s n ctx = .error (.indexOutOfBounds, s) ∧
    ∃ s2, replace s n ctx new_c = .error (.indexOutOfBounds, s2) ∧
      s2.cage = s.cage ∧ s2.bags = s.bags := by
  have hn : s.cage.c[n]? = none := List.getElem?_eq_none h
  constructor
  · simp [access, hn]
  · refine ⟨{ s with
        destroyed := s.destroyed ++ [new_c],
        log := (s.log ++ ["[" ++ ctx ++ "] put " ++ new_c.name ++ " into slot " ++ toString n])
          ++ [new_c.name ++ ": dropped"] }, ?_, rfl, rfl⟩
    simp [replace, hn]

theorem bounds_violation_witness :
    access (initSim 2) 5 "main" = .error (.indexOutOfBounds, initSim 2) ∧
    ∃ s2, replace (initSim 2) 5 "main" (Canary.new "X") = .error (.indexOutOfBounds, s2) ∧
      s2.cage = (initSim 2).cage ∧ s2.bags = (initSim 2).bags :=
  bounds_violation (initSim 2) 5 "main" (Canary.new "X") (by decide)

/-- C4: successful replace.  On any state whose slot `n` holds the non-null
value `old`, `replace n ctx new_c` returns normally with exactly these
effects: slot `n` now holds `new_c`, exactly one deferred destruction —
for `old`, tagged with the current epoch — is appended to the garbage bags,
and the put and removed messages (the latter naming the dislodged value)
are printed.  Nothing is destroyed yet and no other field changes. -/
theorem replace_ok_spec (s : Sim) (n : Nat) (ctx : String) (new_c old : Canary)
    (h : s.cage.c[n]? = some (some old)) :
    replace s n ctx new_c = .ok
      { epoch := s.epoch
        cage := ⟨s.cage.c.set n (some new_c)⟩
        bags := s.bags ++ [(s.epoch, old)]
        destroyed := s.destroyed
        log := s.log ++ ["[" ++ ctx ++ "] put " ++ new_c.name ++ " into slot " ++ toString n,
                         "[" ++ ctx ++ "] removed " ++ old.name] } := by
  simp [replace, h]

theorem replace_ok_spec_witness :
    replace (initSim 1) 0 "main" (Canary.new "X") = .ok
      { epoch := 0
        cage := ⟨[some (Canary.new "X")]⟩
        bags := [(0, Canary.new "Canary 0")]
        destroyed := []
        log := ["[main] put X into slot 0", "[main] removed Canary 0"] } := by
  rw [replace_ok_spec (initSim 1) 0 "main" (Canary.new "X") (Canary.new "Canary 0") (by decide)]
  rfl

/-- C8: deferred actions are not executed synchronously.  Whenever `replace`
returns normally, nothing has been destroyed during the call: the dislodged
value sits in the garbage bags (tagged with the pin-time epoch) and its
removed message is already in the log, while its destructor has not run. -/
theorem defer_not_synchronous (s s' : Sim) (n : Nat) (ctx : String) (new_c : Canary)
    (h : replace s n ctx new_c = .ok s') :
    s'.destroyed = s.destroyed ∧
    ∃ old : Canary, s'.bags = s.bags ++ [(s.epoch, old)] ∧
      ("[" ++ ctx ++ "] removed " ++ old.name) ∈ s'.log := by
  simp only [replace] at h
  split at h
  · cases h
  · cases h
  · next c heq =>
      cases h
      refine ⟨rfl, c, rfl, ?_⟩
      simp

theorem defer_not_synchronous_witness :
    ((⟨0, ⟨[some (Canary.new "X")]⟩, [(0, Canary.new "Canary 0")], [],
        ["[main] put X into slot 0", "[main] removed Canary 0"]⟩ : Sim).destroyed
      = (initSim 1).destroyed) ∧
    ∃ old : Canary,
      (⟨0, ⟨[some (Canary.new "X")]⟩, [(0, Canary.new "Canary 0")], [],
        ["[main] put X into slot 0", "[main] removed Canary 0"]⟩ : Sim).bags
        = (initSim 1).bags ++ [((initSim 1).epoch, old)] ∧
      ("[" ++ "main" ++ "] removed " ++ old.name) ∈
        (⟨0, ⟨[some (Canary.new "X")]⟩, [(0, Canary.new "Canary 0")], [],
          ["[main] put X into slot 0", "[main] removed Canary 0"]⟩ : Sim).log :=
  defer_not_synchronous (initSim 1) _ 0 "main" (Canary.new "X") rfl

/-- C9: frame property.  A successful `replace` at index `n` changes no slot
other than `n` (every other index resolves to the same pointer as before),
and a successful `access` changes the cage not at all. -/
theorem frame_property (s s' : Sim) (n : Nat) (ctx : String) (new_c : Canary)
    (h : replace s n ctx new_c = .ok s') :
    (∀ j, j ≠ n → s'.cage.c[j]? = s.cage.c[j]?) ∧
    (∀ m ctx2 s2, access s m ctx2 = .ok s2 → s2.cage = s.cage) := by
  constructor
  · intro j hj
    simp only [replace] at h
    split at h
    · cases h
    · cases h
    · cases h
      exact List.getElem?_set_ne (Ne.symm hj)
  · intro m ctx2 s2 h2
    simp only [access] at h2
    split at h2
    · cases h2
    · cases h2
    · cases h2; rfl

theorem frame_property_witness :
    (∀ j, j ≠ 0 →
      (⟨0, ⟨[some (Canary.new "X"), some (Canary.new "Canary 1")]⟩,
        [(0, Canary.new "Canary 0")], [],
        ["[main] put X into slot 0", "[main] removed Canary 0"]⟩ : Sim).cage.c[j]?
        = (initSim 2).cage.c[j]?) ∧
    (∀ m ctx2 s2, access (initSim 2) m ctx2 = .ok s2 → s2.cage = (initSim 2).cage) :=
  frame_property (initSim 2) _ 0 "main" (Canary.new "X") rfl

/-- C10: error atomicity of replace at an out-of-range index.  The call
prints the put message, then panics at the slot indexing before the swap:
the cage, the garbage bags, the epoch and the previously destroyed list are
untouched (no deferred action is enqueued), and the only additional effect
is that the supplied new value is destroyed during unwinding — its dropped
message follows the put message in the log. -/
theorem replace_error_atomicity (s : Sim) (n : Nat) (ctx : String) (new_c : Canary)
    (h : s.cage.c.length ≤ n) :
    replace s n ctx new_c = .error (.indexOutOfBounds,
      { epoch := s.epoch
        cage := s.cage
        bags := s.bags
        destroyed := s.destroyed ++ [new_c]
        log := s.log ++ ["[" ++ ctx ++ "] put " ++ new_c.name ++ " into slot " ++ toString n,
                         new_c.name ++ ": dropped"] }) := by
  have hn : s.cage.c[n]? = none := List.getElem?_eq_none h
  simp [replace, hn]

theorem replace_error_atomicity_witness :
    replace (initSim 1) 3 "main" (Canary.new "X") = .error (.indexOutOfBounds,
      { epoch := (initSim 1).epoch
        cage := (initSim 1).cage
        bags := (initSim 1).bags
        destroyed := (initSim 1).destroyed ++ [Canary.new "X"]
        log := (initSim 1).log ++ ["[main] put X into slot 3", "X: dropped"] }) :=
  replace_error_atomicity (initSim 1) 3 "main" (Canary.new "X") (by decide)

theorem allOccupied_new (size : Nat) : allOccupied (BirdCage.new size) := by
  intro slot hslot
  simp only [BirdCage.new, List.mem_map] at hslot
  obtain ⟨i, _, rfl⟩ := hslot
  simp

theorem stepCmd_occupied {s : Sim} (hocc : allOccupied s.cage) (cmd : Cmd) :
    (∀ s1, stepCmd s cmd = .ok s1 → allOccupied s1.cage) ∧
    (∀ t, stepCmd s cmd ≠ .error (.unwrapNone, t)) := by
  cases cmd with
  | access n ctx =>
      constructor
      · intro s1 h1
        simp only [stepCmd, access] at h1
        split at h1
        · cases h1
        · cases h1
        · cases h1; exact hocc
      · intro t h1
        simp only [stepCmd, access] at h1
        split at h1
        · cases h1
        · next hslot =>
            exact absurd rfl (hocc none (List.getElem?_mem hslot))
        · cases h1
  | replace n ctx c' =>
      constructor
      · intro s1 h1
        simp only [stepCmd, replace] at h1
        split at h1
        · cases h1
        · cases h1
        · cases h1
          intro slot hs
          rcases List.mem_or_eq_of_mem_set hs with hs | rfl
          · exact hocc slot hs
          · simp
      · intro t h1
        simp only [stepCmd, replace] at h1
        split at h1
        · cases h1
        · next hslot =>
            exact absurd rfl (hocc none (List.getElem?_mem hslot))
        · cases h1
  | flush =>
      constructor
      · intro s1 h1
        simp only [stepCmd] at h1
        cases h1
        exact hocc
      · intro t h1
        simp only [stepCmd] at h1
        cases h1

theorem runCmds_occupied {s : Sim} (hocc : allOccupied s.cage) (cmds : List Cmd) :
    (∀ s1, runCmds s cmds = .ok s1 → allOccupied s1.cage) ∧
    (∀ t, runCmds s cmds ≠ .error (.unwrapNone, t)) := by
  induction cmds generalizing s with
  | nil =>
      constructor
      · intro s1 h1
        simp only [runCmds] at h1
        cases h1
        exact hocc
      · intro t h1
        simp only [runCmds] at h1
        cases h1
  | cons cmd rest ih =>
      obtain ⟨hok, herr⟩ := stepCmd_occupied hocc cmd
      constructor
      · intro s1 h1
        simp only [runCmds] at h1
        split at h1
        · cases h1
        · next s2 hs2 => exact (ih (hok s2 hs2)).1 s1 h1
      · intro t h1
        simp only [runCmds] at h1
        split at h1
        · next e he =>
            cases h1
            exact herr t (by rw [he])
        · next s2 hs2 => exact (ih (hok s2 hs2)).2 t h1

/-- C5: slots are never null.  Starting from a freshly constructed cage of
any size, after any sequence of `access`/`replace`/`flush` commands every
slot of the resulting cage is still non-null, and in particular no command
sequence can ever make the `unwrap()` of a loaded or swapped-out pointer
panic: the only panic ever produced is the out-of-bounds one. -/
theorem load_never_null (size : Nat) (cmds : List Cmd) :
    (∀ s1, runCmds (initSim size) cmds = .ok s1 → allOccupied s1.cage) ∧
    (∀ t, runCmds (initSim size) cmds ≠ .error (.unwrapNone, t)) :=
  runCmds_occupied (allOccupied_new size) cmds

theorem load_never_null_witness :
    allOccupied
      (⟨0, ⟨[some (Canary.new "X")]⟩, [(0, Canary.new "Canary 0")], [],
        ["[main] put X into slot 0", "[main] removed Canary 0"]⟩ : Sim).cage :=
  (load_never_null 1 [Cmd.replace 0 "main" (Canary.new "X")]).1 _ rfl

theorem stepCmd_length {s : Sim} (cmd : Cmd) :
    ∀ s1, stepCmd s cmd = .ok s1 → s1.cage.c.length = s.cage.c.length := by
  intro s1 h1
  cases cmd with
  | access n ctx =>
      simp only [stepCmd, access] at h1
      split at h1
      · cases h1
      · cases h1
      · cases h1; rfl
  | replace n ctx c' =>
      simp only [stepCmd, replace] at h1
      split at h1
      · cases h1
      · cases h1
      · cases h1
        exact List.length_set s.cage.c n _
  | flush =>
      simp only [stepCmd] at h1
      cases h1
      rfl

theorem runCmds_length {s : Sim} (cmds : List Cmd) :
    ∀ s1, runCmds s cmds = .ok s1 → s1.cage.c.length = s.cage.c.length := by
  induction cmds generalizing s with
  | nil =>
      intro s1 h1
      simp only [runCmds] at h1
      cases h1
      rfl
  | cons cmd rest ih =>
      intro s1 h1
      simp only [runCmds] at h1
      split at h1
      · cases h1
      · next s2 hs2 => exact (ih s1 h1).trans (stepCmd_length cmd s2 hs2)

/-- C6: constructor shape and fixed size.  `BirdCage::new(size)` builds a
cage with exactly `size` slots, indexed `0..size-1`, slot `i` starting
populated with the initializer-produced value `Canary "Canary i"`; and the
size is fixed after construction: any sequence of `access`/`replace`/
`flush` commands run from the freshly built cage leaves it with exactly
`size` slots. -/
theorem birdcage_new_spec (size : Nat) :
    (BirdCage.new size).c.length = size ∧
    (∀ i, i < size →
      (BirdCage.new size).c[i]? = some (some (Canary.new ("Canary " ++ toString i)))) ∧
    (∀ cmds s1, runCmds (initSim size) cmds = .ok s1 → s1.cage.c.length = size) := by
  refine ⟨?_, ?_, ?_⟩
  · simp [BirdCage.new]
  · intro i hi
    simp [BirdCage.new, List.getElem?_map, List.getElem?_range hi]
  · intro cmds s1 h1
    have := runCmds_length cmds s1 h1
    simpa [initSim, BirdCage.new] using this

theorem birdcage_new_spec_witness :
    (BirdCage.new 3).c.length = 3 ∧
    (BirdCage.new 3).c[1]? = some (some (Canary.new ("Canary " ++ toString 1))) ∧
    (⟨0, ⟨[some (Canary.new "Canary 0"), some (Canary.new "X"), some (Canary.new "Canary 2")]⟩,
      [(0, Canary.new "Canary 1")], [],
      ["[main] put X into slot 1", "[main] removed Canary 1"]⟩ : Sim).cage.c.length = 3 :=
  ⟨(birdcage_new_spec 3).1, (birdcage_new_spec 3).2.1 1 (by decide),
   (birdcage_new_spec 3).2.2 [Cmd.replace 1 "main" (Canary.new "X")] _ rfl⟩

end EpochPlayground
